import Mathlib

/-!
Verification of the Gaia EDR3 G-band correction routine (`correct_gband` from
`GCorrectionCode.ipynb`).

Modelling choices:
* A floating-point scalar that may be NaN is modelled by `NFloat`: either `nan`
  or an exact rational value.  NumPy comparison semantics are kept: every
  comparison with NaN is false, and arithmetic propagates NaN.
* `astrometric_params_solved` is cast by the source to `np.int64`; it is
  modelled by `ℤ` (the only operation on it is an exact equality test with 95,
  so word size never matters).
* `np.log10` appears only in the corrected magnitude.  It is modelled over the
  real numbers by `Real.logb 10`; non-positive arguments (where NumPy yields
  NaN or `-inf`) are mapped to NaN.  The correction factor is proved strictly
  positive, so that case is unreachable.
* A 1-dimensional array is modelled by a `List`; its shape is its length.
  The shape-mismatch `ValueError` is modelled by `Except.error`.
-/

namespace GCorrection

/-- Floating point scalar that is either NaN or an exact rational number. -/
inductive NFloat where
  | nan : NFloat
  | val : ℚ → NFloat
deriving DecidableEq, Repr

/-- Result scalar that is either NaN or a real number (the corrected magnitude
involves a logarithm, hence lives in the reals). -/
inductive RFloat where
  | nan : RFloat
  | val : ℝ → RFloat

/-- NumPy `np.isnan` on a scalar. -/
def NFloat.isnan : NFloat → Bool
  | NFloat.nan => true
  | NFloat.val _ => false

/-- NumPy comparison `x <= c`: false whenever `x` is NaN. -/
def NFloat.leb : NFloat → ℚ → Bool
  | NFloat.nan, _ => false
  | NFloat.val q, c => decide (q ≤ c)

/-- NumPy comparison `x > c`: false whenever `x` is NaN. -/
def NFloat.gtb : NFloat → ℚ → Bool
  | NFloat.nan, _ => false
  | NFloat.val q, c => decide (c < q)

/-- NaN-propagating addition. -/
def NFloat.add : NFloat → NFloat → NFloat
  | NFloat.val a, NFloat.val b => NFloat.val (a + b)
  | _, _ => NFloat.nan

/-- NaN-propagating subtraction. -/
def NFloat.sub : NFloat → NFloat → NFloat
  | NFloat.val a, NFloat.val b => NFloat.val (a - b)
  | _, _ => NFloat.nan

/-- NaN-propagating multiplication. -/
def NFloat.mul : NFloat → NFloat → NFloat
  | NFloat.val a, NFloat.val b => NFloat.val (a * b)
  | _, _ => NFloat.nan

/-- NumPy `np.power` with a natural exponent.  `np.power(x, 0)` is `1.0` even
for NaN input; a positive exponent propagates NaN. -/
def NFloat.npow : NFloat → ℕ → NFloat
  | _, 0 => NFloat.val 1
  | NFloat.nan, _ + 1 => NFloat.nan
  | NFloat.val a, n + 1 => NFloat.val (a ^ (n + 1))

/-- NumPy `np.clip(x, lo, hi)`, i.e. `minimum(maximum(x, lo), hi)`;
NaN-preserving. -/
def clip (x : NFloat) (lo hi : ℚ) : NFloat :=
  match x with
  | NFloat.nan => NFloat.nan
  | NFloat.val q => NFloat.val (min (max q lo) hi)

/-- Embedding of an `NFloat` into the result scalars. -/
def NFloat.toR : NFloat → RFloat
  | NFloat.nan => RFloat.nan
  | NFloat.val q => RFloat.val (q : ℝ)

/-- NaN-propagating subtraction on result scalars. -/
def RFloat.sub : RFloat → RFloat → RFloat
  | RFloat.val a, RFloat.val b => RFloat.val (a - b)
  | _, _ => RFloat.nan

/-- NaN-propagating multiplication on result scalars. -/
def RFloat.mul : RFloat → RFloat → RFloat
  | RFloat.val a, RFloat.val b => RFloat.val (a * b)
  | _, _ => RFloat.nan

/-- NumPy `np.log10` on a maybe-NaN scalar.  For a non-positive argument NumPy
returns NaN (negative) or `-inf` (zero); both are modelled as NaN here.  That
case is unreachable in this program: the correction factor is strictly
positive (`correction_factor_exists_pos` below). -/
noncomputable def log10RF : NFloat → RFloat
  | NFloat.nan => RFloat.nan
  | NFloat.val q => if 0 < q then RFloat.val (Real.logb 10 (q : ℝ)) else RFloat.nan

/-- Source line `do_not_correct = np.isnan(bp_rp) | (phot_g_mean_mag<=13) |
(astrometric_params_solved != 95)`, element-wise. -/
def do_not_correct (bp_rp : NFloat) (astrometric_params_solved : ℤ)
    (phot_g_mean_mag : NFloat) : Bool :=
  bp_rp.isnan || phot_g_mean_mag.leb 13 || (astrometric_params_solved != 95)

/-- Source line `bright_correct = np.logical_not(do_not_correct) &
(phot_g_mean_mag>13) & (phot_g_mean_mag<=16)`, element-wise. -/
def bright_correct (bp_rp : NFloat) (astrometric_params_solved : ℤ)
    (phot_g_mean_mag : NFloat) : Bool :=
  !(do_not_correct bp_rp astrometric_params_solved phot_g_mean_mag) &&
    phot_g_mean_mag.gtb 13 && phot_g_mean_mag.leb 16

/-- Source line `faint_correct = np.logical_not(do_not_correct) &
(phot_g_mean_mag>16)`, element-wise. -/
def faint_correct (bp_rp : NFloat) (astrometric_params_solved : ℤ)
    (phot_g_mean_mag : NFloat) : Bool :=
  !(do_not_correct bp_rp astrometric_params_solved phot_g_mean_mag) &&
    phot_g_mean_mag.gtb 16

/-- Element-wise content of the `correction_factor` computation: start from
`np.ones_like(phot_g_mean_mag)`, overwrite the `faint_correct` entries with
the faint cubic, then overwrite the `bright_correct` entries with the bright
cubic (`bp_rp_c = np.clip(bp_rp, 0.25, 3.0)`). -/
def correction_factor (bp_rp : NFloat) (astrometric_params_solved : ℤ)
    (phot_g_mean_mag : NFloat) : NFloat :=
  let bp_rp_c := clip bp_rp 0.25 3.0
  let cf0 := NFloat.val 1
  let cf1 :=
    if faint_correct bp_rp astrometric_params_solved phot_g_mean_mag then
      NFloat.sub
        (NFloat.add
          (NFloat.sub (NFloat.val 1.00525) (NFloat.mul (NFloat.val 0.02323) bp_rp_c))
          (NFloat.mul (NFloat.val 0.01740) (NFloat.npow bp_rp_c 2)))
        (NFloat.mul (NFloat.val 0.00253) (NFloat.npow bp_rp_c 3))
    else cf0
  if bright_correct bp_rp astrometric_params_solved phot_g_mean_mag then
    NFloat.sub
      (NFloat.add
        (NFloat.sub (NFloat.val 1.00876) (NFloat.mul (NFloat.val 0.02540) bp_rp_c))
        (NFloat.mul (NFloat.val 0.01747) (NFloat.npow bp_rp_c 2)))
      (NFloat.mul (NFloat.val 0.00277) (NFloat.npow bp_rp_c 3))
  else cf1

/-- One element of `correct_gband` past the shape check: returns the pair
`(gmag_corrected, gflux_corrected)` where
`gmag_corrected = phot_g_mean_mag - 2.5*np.log10(correction_factor)` and
`gflux_corrected = phot_g_mean_flux * correction_factor`.  This is also the
semantics of a call on scalar inputs (the source casts scalars to 0-d arrays
and runs the identical array code on them). -/
noncomputable def correct_gband_elem (bp_rp : NFloat) (astrometric_params_solved : ℤ)
    (phot_g_mean_mag : NFloat) (phot_g_mean_flux : NFloat) : RFloat × NFloat :=
  let cf := correction_factor bp_rp astrometric_params_solved phot_g_mean_mag
  (RFloat.sub (NFloat.toR phot_g_mean_mag)
      (RFloat.mul (RFloat.val 2.5) (log10RF cf)),
    NFloat.mul phot_g_mean_flux cf)

/-- Element-wise traversal of the four parallel input arrays. -/
noncomputable def correct_rows :
    List NFloat → List ℤ → List NFloat → List NFloat → List (RFloat × NFloat)
  | b :: bs, a :: cs, m :: ms, f :: fs =>
      correct_gband_elem b a m f :: correct_rows bs cs ms fs
  | _, _, _, _ => []

/-- The shape-mismatch message of the source's `ValueError`. -/
def shapeErrorMsg : String := "Function parameters must be of the same shape!"

/-- Embedding of `correct_gband` on 1-dimensional array inputs: first the
chained shape check `bp_rp.shape == astrometric_params_solved.shape ==
phot_g_mean_mag.shape == phot_g_mean_flux.shape` (raising `ValueError`
otherwise), then the element-wise correction. -/
noncomputable def correct_gband (bp_rp : List NFloat) (astrometric_params_solved : List ℤ)
    (phot_g_mean_mag : List NFloat) (phot_g_mean_flux : List NFloat) :
    Except String (List RFloat × List NFloat) :=
  if bp_rp.length = astrometric_params_solved.length ∧
      astrometric_params_solved.length = phot_g_mean_mag.length ∧
      phot_g_mean_mag.length = phot_g_mean_flux.length then
    let rows := correct_rows bp_rp astrometric_params_solved phot_g_mean_mag phot_g_mean_flux
    Except.ok (rows.map Prod.fst, rows.map Prod.snd)
  else
    Except.error shapeErrorMsg

/-- Spec-side faint-regime cubic, written as in the spec text. -/
def faint_poly (c : ℚ) : ℚ := 1.00525 - 0.02323 * c + 0.01740 * c ^ 2 - 0.00253 * c ^ 3

/-- Spec-side bright-regime cubic, written as in the spec text. -/
def bright_poly (c : ℚ) : ℚ := 1.00876 - 0.02540 * c + 0.01747 * c ^ 2 - 0.00277 * c ^ 3

/-- Spec-side clipping of a (non-NaN) colour to `[0.25, 3.0]`. -/
def clipQ (c : ℚ) : ℚ := min (max c 0.25) 3.0

example : correction_factor (NFloat.val 1.5) 95 (NFloat.val 17) =
    NFloat.val (800813 / 800000) := by
  norm_num [correction_factor, faint_correct, bright_correct, do_not_correct,
    NFloat.isnan, NFloat.leb, NFloat.gtb, clip, NFloat.sub, NFloat.add, NFloat.mul,
    NFloat.npow]

example : correction_factor (NFloat.val 1.5) 31 (NFloat.val 17) = NFloat.val 1 := by
  norm_num [correction_factor, faint_correct, bright_correct, do_not_correct,
    NFloat.isnan, NFloat.leb, NFloat.gtb]

example : clip NFloat.nan 0.25 3.0 = NFloat.nan := rfl

/-! Basic evaluation lemmas for the NaN-aware scalars. -/

lemma NFloat.mul_val_one (f : NFloat) : NFloat.mul f (NFloat.val 1) = f := by
  cases f <;> simp [NFloat.mul]

lemma RFloat.sub_val_zero (x : RFloat) : RFloat.sub x (RFloat.val 0) = x := by
  cases x <;> simp [RFloat.sub]

lemma log10RF_val_one : log10RF (NFloat.val 1) = RFloat.val 0 := by
  norm_num [log10RF]

/-! Lemmas about the three masks. -/

lemma bright_correct_eq_false_of_dnc {b : NFloat} {a : ℤ} {m : NFloat}
    (h : do_not_correct b a m = true) : bright_correct b a m = false := by
  simp [bright_correct, h]

lemma faint_correct_eq_false_of_dnc {b : NFloat} {a : ℤ} {m : NFloat}
    (h : do_not_correct b a m = true) : faint_correct b a m = false := by
  simp [faint_correct, h]

lemma bright_correct_eq_false_of_faint {b : NFloat} {a : ℤ} {m : NFloat}
    (h : faint_correct b a m = true) : bright_correct b a m = false := by
  cases m with
  | nan => simp [faint_correct, NFloat.gtb] at h
  | val q =>
      have h16 : ¬(q ≤ 16) := by
        simp [faint_correct, NFloat.gtb, decide_eq_true_eq] at h
        linarith [h.2]
      simp [bright_correct, NFloat.leb, h16]

lemma bright_correct_isnan {b : NFloat} {a : ℤ} {m : NFloat}
    (h : bright_correct b a m = true) : b.isnan = false := by
  cases b with
  | nan => simp [bright_correct, do_not_correct, NFloat.isnan] at h
  | val q => rfl

lemma faint_correct_isnan {b : NFloat} {a : ℤ} {m : NFloat}
    (h : faint_correct b a m = true) : b.isnan = false := by
  cases b with
  | nan => simp [faint_correct, do_not_correct, NFloat.isnan] at h
  | val q => rfl

/-! Closed forms of the correction factor in each of the three cases. -/

lemma correction_factor_of_none {b : NFloat} {a : ℤ} {m : NFloat}
    (h1 : bright_correct b a m = false) (h2 : faint_correct b a m = false) :
    correction_factor b a m = NFloat.val 1 := by
  simp [correction_factor, h1, h2]

lemma correction_factor_of_bright {q : ℚ} {a : ℤ} {m : NFloat}
    (h : bright_correct (NFloat.val q) a m = true) :
    correction_factor (NFloat.val q) a m = NFloat.val (bright_poly (clipQ q)) := by
  simp only [correction_factor, h, if_true, clip, NFloat.sub, NFloat.add, NFloat.mul,
    NFloat.npow, bright_poly, clipQ]

lemma correction_factor_of_faint {q : ℚ} {a : ℤ} {m : NFloat}
    (h : faint_correct (NFloat.val q) a m = true) :
    correction_factor (NFloat.val q) a m = NFloat.val (faint_poly (clipQ q)) := by
  have hb := bright_correct_eq_false_of_faint h
  simp only [correction_factor, h, hb, if_true, if_false, Bool.false_eq_true, clip,
    NFloat.sub, NFloat.add, NFloat.mul, NFloat.npow, faint_poly, clipQ]

/-! Positivity of the two cubics on the clipped colour range. -/

lemma clipQ_bounds (c : ℚ) : 1/4 ≤ clipQ c ∧ clipQ c ≤ 3 := by
  unfold clipQ
  constructor
  · exact le_min (le_trans (by norm_num) (le_max_right c 0.25)) (by norm_num)
  · exact le_trans (min_le_right _ _) (by norm_num)

lemma faint_poly_pos {c : ℚ} (h1 : 1/4 ≤ c) (h2 : c ≤ 3) : 0 < faint_poly c := by
  unfold faint_poly
  nlinarith [sq_nonneg (c - 1), mul_nonneg (mul_self_nonneg c) (sub_nonneg.mpr h2)]

lemma bright_poly_pos {c : ℚ} (h1 : 1/4 ≤ c) (h2 : c ≤ 3) : 0 < bright_poly c := by
  unfold bright_poly
  nlinarith [sq_nonneg (c - 1), mul_nonneg (mul_self_nonneg c) (sub_nonneg.mpr h2)]

lemma correction_factor_pos (b : NFloat) (a : ℤ) (m : NFloat) :
    ∃ q : ℚ, correction_factor b a m = NFloat.val q ∧ 0 < q := by
  by_cases hb : bright_correct b a m = true
  · obtain ⟨qb, rfl⟩ : ∃ qb, b = NFloat.val qb := by
      cases b with
      | nan => exact absurd (bright_correct_isnan hb) (by simp [NFloat.isnan])
      | val q => exact ⟨q, rfl⟩
    exact ⟨_, correction_factor_of_bright hb,
      bright_poly_pos (clipQ_bounds qb).1 (clipQ_bounds qb).2⟩
  · by_cases hf : faint_correct b a m = true
    · obtain ⟨qb, rfl⟩ : ∃ qb, b = NFloat.val qb := by
        cases b with
        | nan => exact absurd (faint_correct_isnan hf) (by simp [NFloat.isnan])
        | val q => exact ⟨q, rfl⟩
      exact ⟨_, correction_factor_of_faint hf,
        faint_poly_pos (clipQ_bounds qb).1 (clipQ_bounds qb).2⟩
    · exact ⟨1, correction_factor_of_none (by simpa using hb) (by simpa using hf), one_pos⟩

/-! Closed forms of a whole element result. -/

lemma correct_gband_elem_of_factor_one {b : NFloat} {a : ℤ} {m : NFloat}
    (h : correction_factor b a m = NFloat.val 1) (f : NFloat) :
    correct_gband_elem b a m f = (NFloat.toR m, f) := by
  simp [correct_gband_elem, h, log10RF_val_one, RFloat.mul, NFloat.mul_val_one,
    RFloat.sub_val_zero]

lemma correct_gband_elem_of_factor_val {b : NFloat} {a : ℤ} {p mq : ℚ}
    (hp : 0 < p) (h : correction_factor b a (NFloat.val mq) = NFloat.val p) (f : NFloat) :
    correct_gband_elem b a (NFloat.val mq) f =
      (RFloat.val ((mq : ℝ) - 2.5 * Real.logb 10 (p : ℝ)), NFloat.mul f (NFloat.val p)) := by
  simp [correct_gband_elem, h, log10RF, hp, NFloat.toR, RFloat.mul, RFloat.sub]

/-! Lemmas about the element-wise traversal of the input arrays. -/

lemma correct_rows_length (bs : List NFloat) : ∀ (cs : List ℤ) (ms fs : List NFloat),
    bs.length = cs.length → cs.length = ms.length → ms.length = fs.length →
    (correct_rows bs cs ms fs).length = bs.length := by
  induction bs with
  | nil => intro cs ms fs _ _ _; rfl
  | cons b bs ih =>
      intro cs ms fs h1 h2 h3
      cases cs with
      | nil => simp at h1
      | cons a cs =>
          cases ms with
          | nil => simp at h2
          | cons m ms =>
              cases fs with
              | nil => simp at h3
              | cons f fs =>
                  have := ih cs ms fs (by simpa using h1) (by simpa using h2)
                    (by simpa using h3)
                  simp [correct_rows, this]

lemma correct_rows_getElem? (bs : List NFloat) : ∀ (cs : List ℤ) (ms fs : List NFloat)
    (i : ℕ) (b : NFloat) (a : ℤ) (m f : NFloat),
    bs[i]? = some b → cs[i]? = some a → ms[i]? = some m → fs[i]? = some f →
    (correct_rows bs cs ms fs)[i]? = some (correct_gband_elem b a m f) := by
  induction bs with
  | nil => intro cs ms fs i b a m f hb _ _ _; simp at hb
  | cons b0 bs ih =>
      intro cs ms fs i b a m f hb ha hm hf
      cases cs with
      | nil => simp at ha
      | cons a0 cs =>
          cases ms with
          | nil => simp at hm
          | cons m0 ms =>
              cases fs with
              | nil => simp at hf
              | cons f0 fs =>
                  cases i with
                  | zero =>
                      simp only [List.getElem?_cons_zero, Option.some.injEq] at hb ha hm hf
                      subst hb; subst ha; subst hm; subst hf
                      simp [correct_rows]
                  | succ i =>
                      simp only [List.getElem?_cons_succ] at hb ha hm hf
                      simpa [correct_rows] using ih cs ms fs i b a m f hb ha hm hf

/-- C1.  Identity on exclusion: for every element whose solution code is not
exactly 95, or whose magnitude is a number `≤ 13`, or whose colour is NaN,
the correction factor is exactly 1 and the corrected magnitude and flux equal
the inputs exactly. -/
theorem identity_on_exclusion (bp : NFloat) (aps : ℤ) (mag gflux : NFloat)
    (h : aps ≠ 95 ∨ (∃ q : ℚ, mag = NFloat.val q ∧ q ≤ 13) ∨ bp = NFloat.nan) :
    correction_factor bp aps mag = NFloat.val 1 ∧
    correct_gband_elem bp aps mag gflux = (NFloat.toR mag, gflux) := by
  have hdnc : do_not_correct bp aps mag = true := by
    rcases h with h | ⟨q, hq, hq13⟩ | h
    · simp [do_not_correct, bne_iff_ne, h]
    · subst hq
      simp [do_not_correct, NFloat.leb, hq13]
    · subst h
      simp [do_not_correct, NFloat.isnan]
  have hcf := correction_factor_of_none (bright_correct_eq_false_of_dnc hdnc)
    (faint_correct_eq_false_of_dnc hdnc)
  exact ⟨hcf, correct_gband_elem_of_factor_one hcf gflux⟩

/-- Witness for C1: the spec's own excluded concrete scenario, solution code
31 with colour 1.5, magnitude 17, flux 1000. -/
theorem identity_on_exclusion_witness :
    correction_factor (NFloat.val 1.5) 31 (NFloat.val 17) = NFloat.val 1 ∧
    correct_gband_elem (NFloat.val 1.5) 31 (NFloat.val 17) (NFloat.val 1000) =
      (NFloat.toR (NFloat.val 17), NFloat.val 1000) :=
  identity_on_exclusion (NFloat.val 1.5) 31 (NFloat.val 17) (NFloat.val 1000)
    (Or.inl (by norm_num))

/-- C2.  Regime assignment: for an eligible element (non-NaN colour, solution
code 95, magnitude `> 13`) the bright regime holds exactly when the magnitude
is `≤ 16` and the faint regime exactly when it is `> 16`; a magnitude of
exactly 13 is excluded (factor 1), and a magnitude of exactly 16 is in the
bright regime. -/
theorem regime_assignment (b m : ℚ) (hm : 13 < m) :
    (bright_correct (NFloat.val b) 95 (NFloat.val m) = true ↔ m ≤ 16) ∧
    (faint_correct (NFloat.val b) 95 (NFloat.val m) = true ↔ 16 < m) ∧
    do_not_correct (NFloat.val b) 95 (NFloat.val 13) = true ∧
    correction_factor (NFloat.val b) 95 (NFloat.val 13) = NFloat.val 1 ∧
    bright_correct (NFloat.val b) 95 (NFloat.val 16) = true := by
  have h13 : ¬(m ≤ 13) := not_le.mpr hm
  have hd13 : do_not_correct (NFloat.val b) 95 (NFloat.val 13) = true := by
    simp [do_not_correct, NFloat.leb]
  refine ⟨?_, ?_, hd13, ?_, ?_⟩
  · simp [bright_correct, do_not_correct, NFloat.isnan, NFloat.leb, NFloat.gtb, h13, hm]
  · simp [faint_correct, do_not_correct, NFloat.isnan, NFloat.leb, NFloat.gtb, h13]
  · exact correction_factor_of_none (bright_correct_eq_false_of_dnc hd13)
      (faint_correct_eq_false_of_dnc hd13)
  · norm_num [bright_correct, do_not_correct, NFloat.isnan, NFloat.leb, NFloat.gtb]

/-- Witness for C2 at colour 1, magnitude 14. -/
theorem regime_assignment_witness :
    (bright_correct (NFloat.val 1) 95 (NFloat.val 14) = true ↔ (14 : ℚ) ≤ 16) ∧
    (faint_correct (NFloat.val 1) 95 (NFloat.val 14) = true ↔ (16 : ℚ) < 14) ∧
    do_not_correct (NFloat.val 1) 95 (NFloat.val 13) = true ∧
    correction_factor (NFloat.val 1) 95 (NFloat.val 13) = NFloat.val 1 ∧
    bright_correct (NFloat.val 1) 95 (NFloat.val 16) = true :=
  regime_assignment 1 14 (by norm_num)

/-- C5.  NaN magnitude propagation: a NaN magnitude yields a NaN corrected
magnitude, and the element gets correction factor 1 so the corrected flux is
the input flux. -/
theorem nan_magnitude_propagation (bp : NFloat) (aps : ℤ) (gflux : NFloat) :
    correction_factor bp aps NFloat.nan = NFloat.val 1 ∧
    correct_gband_elem bp aps NFloat.nan gflux = (RFloat.nan, gflux) := by
  have hb : bright_correct bp aps NFloat.nan = false := by
    simp [bright_correct, NFloat.gtb]
  have hf : faint_correct bp aps NFloat.nan = false := by
    simp [faint_correct, NFloat.gtb]
  have hcf := correction_factor_of_none hb hf
  refine ⟨hcf, ?_⟩
  simpa [NFloat.toR] using correct_gband_elem_of_factor_one hcf gflux

/-- C3.  Correction formula: for an eligible element with clipped colour
`c = clipQ b`, the correction factor is the bright cubic when the magnitude is
in `(13, 16]` and the faint cubic when it is `> 16`, the corrected magnitude
is `magnitude - 2.5 * log10 factor` (base-10 logarithm) and the corrected
flux is `flux * factor`. -/
theorem correction_formula (b m : ℚ) (gflux : NFloat) (hm : 13 < m) :
    (m ≤ 16 →
      correction_factor (NFloat.val b) 95 (NFloat.val m) =
        NFloat.val (1.00876 - 0.02540 * clipQ b + 0.01747 * clipQ b ^ 2 -
          0.00277 * clipQ b ^ 3) ∧
      correct_gband_elem (NFloat.val b) 95 (NFloat.val m) gflux =
        (RFloat.val ((m : ℝ) - 2.5 * Real.logb 10
            ((1.00876 - 0.02540 * clipQ b + 0.01747 * clipQ b ^ 2 -
              0.00277 * clipQ b ^ 3 : ℚ) : ℝ)),
         NFloat.mul gflux (NFloat.val (1.00876 - 0.02540 * clipQ b +
           0.01747 * clipQ b ^ 2 - 0.00277 * clipQ b ^ 3)))) ∧
    (16 < m →
      correction_factor (NFloat.val b) 95 (NFloat.val m) =
        NFloat.val (1.00525 - 0.02323 * clipQ b + 0.01740 * clipQ b ^ 2 -
          0.00253 * clipQ b ^ 3) ∧
      correct_gband_elem (NFloat.val b) 95 (NFloat.val m) gflux =
        (RFloat.val ((m : ℝ) - 2.5 * Real.logb 10
            ((1.00525 - 0.02323 * clipQ b + 0.01740 * clipQ b ^ 2 -
              0.00253 * clipQ b ^ 3 : ℚ) : ℝ)),
         NFloat.mul gflux (NFloat.val (1.00525 - 0.02323 * clipQ b +
           0.01740 * clipQ b ^ 2 - 0.00253 * clipQ b ^ 3)))) := by
  have h13 : ¬(m ≤ 13) := not_le.mpr hm
  constructor
  · intro h16
    have hbr : bright_correct (NFloat.val b) 95 (NFloat.val m) = true := by
      simp [bright_correct, do_not_correct, NFloat.isnan, NFloat.leb, NFloat.gtb,
        h13, hm, h16]
    have hcf := correction_factor_of_bright hbr
    have hpos := bright_poly_pos (clipQ_bounds b).1 (clipQ_bounds b).2
    rw [bright_poly] at hcf hpos
    exact ⟨hcf, correct_gband_elem_of_factor_val hpos hcf gflux⟩
  · intro h16
    have hfa : faint_correct (NFloat.val b) 95 (NFloat.val m) = true := by
      simp [faint_correct, do_not_correct, NFloat.isnan, NFloat.leb, NFloat.gtb,
        h13, h16]
    have hcf := correction_factor_of_faint hfa
    have hpos := faint_poly_pos (clipQ_bounds b).1 (clipQ_bounds b).2
    rw [faint_poly] at hcf hpos
    exact ⟨hcf, correct_gband_elem_of_factor_val hpos hcf gflux⟩

/-- Witness for C3 at colour 1.5, magnitude 17, flux 1000 (faint regime). -/
theorem correction_formula_witness :
    correction_factor (NFloat.val 1.5) 95 (NFloat.val 17) =
      NFloat.val (1.00525 - 0.02323 * clipQ 1.5 + 0.01740 * clipQ 1.5 ^ 2 -
        0.00253 * clipQ 1.5 ^ 3) ∧
    correct_gband_elem (NFloat.val 1.5) 95 (NFloat.val 17) (NFloat.val 1000) =
      (RFloat.val (((17 : ℚ) : ℝ) - 2.5 * Real.logb 10
          ((1.00525 - 0.02323 * clipQ 1.5 + 0.01740 * clipQ 1.5 ^ 2 -
            0.00253 * clipQ 1.5 ^ 3 : ℚ) : ℝ)),
       NFloat.mul (NFloat.val 1000) (NFloat.val (1.00525 - 0.02323 * clipQ 1.5 +
         0.01740 * clipQ 1.5 ^ 2 - 0.00253 * clipQ 1.5 ^ 3))) :=
  (correction_formula 1.5 17 (NFloat.val 1000) (by norm_num)).2 (by norm_num)

/-! Helpers for the clipping claim. -/

lemma clip_of_le {q : ℚ} (h : q ≤ 0.25) :
    clip (NFloat.val q) 0.25 3.0 = NFloat.val 0.25 := by
  simp [clip, max_eq_right h, min_eq_left (by norm_num : (0.25 : ℚ) ≤ 3.0)]

lemma clip_of_ge {q : ℚ} (h : 3.0 ≤ q) :
    clip (NFloat.val q) 0.25 3.0 = NFloat.val 3.0 := by
  simp [clip, min_eq_right (le_trans h (le_max_left q 0.25))]

lemma correction_factor_congr {q1 q2 : ℚ}
    (h : clip (NFloat.val q1) 0.25 3.0 = clip (NFloat.val q2) 0.25 3.0)
    (aps : ℤ) (mag : NFloat) :
    correction_factor (NFloat.val q1) aps mag =
      correction_factor (NFloat.val q2) aps mag := by
  have hb : bright_correct (NFloat.val q1) aps mag =
      bright_correct (NFloat.val q2) aps mag := rfl
  have hf : faint_correct (NFloat.val q1) aps mag =
      faint_correct (NFloat.val q2) aps mag := rfl
  simp only [correction_factor, hb, hf, h]

lemma correct_gband_elem_congr {q1 q2 : ℚ}
    (h : clip (NFloat.val q1) 0.25 3.0 = clip (NFloat.val q2) 0.25 3.0)
    (aps : ℤ) (mag gflux : NFloat) :
    correct_gband_elem (NFloat.val q1) aps mag gflux =
      correct_gband_elem (NFloat.val q2) aps mag gflux := by
  simp only [correct_gband_elem, correction_factor_congr h aps mag]

/-- C6.  Clipping constancy: the colour is clamped to `[0.25, 3.0]` before
entering the polynomial, so two calls identical except for colours that are
both `≤ 0.25` (or both `≥ 3.0`) produce identical correction factors and
identical outputs, and clipping a NaN colour yields NaN (no error). -/
theorem clipping_constancy :
    (∀ (q1 q2 : ℚ) (aps : ℤ) (mag gflux : NFloat), q1 ≤ 0.25 → q2 ≤ 0.25 →
      correction_factor (NFloat.val q1) aps mag = correction_factor (NFloat.val q2) aps mag ∧
      correct_gband_elem (NFloat.val q1) aps mag gflux =
        correct_gband_elem (NFloat.val q2) aps mag gflux) ∧
    (∀ (q1 q2 : ℚ) (aps : ℤ) (mag gflux : NFloat), 3.0 ≤ q1 → 3.0 ≤ q2 →
      correction_factor (NFloat.val q1) aps mag = correction_factor (NFloat.val q2) aps mag ∧
      correct_gband_elem (NFloat.val q1) aps mag gflux =
        correct_gband_elem (NFloat.val q2) aps mag gflux) ∧
    clip NFloat.nan 0.25 3.0 = NFloat.nan := by
  refine ⟨?_, ?_, rfl⟩
  · intro q1 q2 aps mag gflux h1 h2
    have h := (clip_of_le h1).trans (clip_of_le h2).symm
    exact ⟨correction_factor_congr h aps mag, correct_gband_elem_congr h aps mag gflux⟩
  · intro q1 q2 aps mag gflux h1 h2
    have h := (clip_of_ge h1).trans (clip_of_ge h2).symm
    exact ⟨correction_factor_congr h aps mag, correct_gband_elem_congr h aps mag gflux⟩

/-- Witness for C6: colours 0.1 and 0.2 (both below the clip floor) give
identical results. -/
theorem clipping_constancy_witness :
    correction_factor (NFloat.val 0.1) 95 (NFloat.val 17) =
      correction_factor (NFloat.val 0.2) 95 (NFloat.val 17) ∧
    correct_gband_elem (NFloat.val 0.1) 95 (NFloat.val 17) (NFloat.val 1000) =
      correct_gband_elem (NFloat.val 0.2) 95 (NFloat.val 17) (NFloat.val 1000) :=
  clipping_constancy.1 0.1 0.2 95 (NFloat.val 17) (NFloat.val 1000)
    (by norm_num) (by norm_num)

/-- C4.  Shape-mismatch failure: the call fails, and fails with exactly the
shape-mismatch message, if and only if the four inputs do not all share the
same shape; the only other possible outcome is a successful result (the check
happens before any correction computation). -/
theorem shape_mismatch_error (bs : List NFloat) (cs : List ℤ) (ms fs : List NFloat) :
    (correct_gband bs cs ms fs = Except.error shapeErrorMsg ↔
      ¬(bs.length = cs.length ∧ cs.length = ms.length ∧ ms.length = fs.length)) ∧
    ((∃ out, correct_gband bs cs ms fs = Except.ok out) ∨
      correct_gband bs cs ms fs = Except.error shapeErrorMsg) := by
  constructor
  · constructor
    · intro herr hlen
      unfold correct_gband at herr
      rw [if_pos hlen] at herr
      simp at herr
    · intro hlen
      unfold correct_gband
      rw [if_neg hlen]
  · by_cases hlen : bs.length = cs.length ∧ cs.length = ms.length ∧ ms.length = fs.length
    · refine Or.inl ⟨((correct_rows bs cs ms fs).map Prod.fst,
        (correct_rows bs cs ms fs).map Prod.snd), ?_⟩
      unfold correct_gband
      rw [if_pos hlen]
    · refine Or.inr ?_
      unfold correct_gband
      rw [if_neg hlen]

/-- Witness for C4: each of the four argument positions alone having a
different length triggers the shape-mismatch error. -/
theorem shape_mismatch_error_witness :
    correct_gband [NFloat.val 1, NFloat.val 2] [95] [NFloat.val 17] [NFloat.val 9] =
      Except.error shapeErrorMsg ∧
    correct_gband [NFloat.val 1] [95, 95] [NFloat.val 17] [NFloat.val 9] =
      Except.error shapeErrorMsg ∧
    correct_gband [NFloat.val 1] [95] [NFloat.val 17, NFloat.val 18] [NFloat.val 9] =
      Except.error shapeErrorMsg ∧
    correct_gband [NFloat.val 1] [95] [NFloat.val 17] [NFloat.val 9, NFloat.val 8] =
      Except.error shapeErrorMsg :=
  ⟨(shape_mismatch_error _ _ _ _).1.mpr (by simp),
   (shape_mismatch_error _ _ _ _).1.mpr (by simp),
   (shape_mismatch_error _ _ _ _).1.mpr (by simp),
   (shape_mismatch_error _ _ _ _).1.mpr (by simp)⟩

/-- C7.  Scalar/vector equivalence: on equal-length vector inputs, the i-th
entries of both outputs coincide exactly with the outputs of the scalar call
on the i-th input elements (scalar calls run the identical element-wise code
after the source normalises scalars to 0-d arrays). -/
theorem scalar_vector_equivalence (bs : List NFloat) (cs : List ℤ) (ms fs : List NFloat)
    (h1 : bs.length = cs.length) (h2 : cs.length = ms.length) (h3 : ms.length = fs.length)
    (i : ℕ) (b : NFloat) (a : ℤ) (m f : NFloat)
    (hb : bs[i]? = some b) (ha : cs[i]? = some a) (hm : ms[i]? = some m)
    (hf : fs[i]? = some f) :
    ∃ gm gf, correct_gband bs cs ms fs = Except.ok (gm, gf) ∧
      gm[i]? = some (correct_gband_elem b a m f).1 ∧
      gf[i]? = some (correct_gband_elem b a m f).2 := by
  have hrows := correct_rows_getElem? bs cs ms fs i b a m f hb ha hm hf
  refine ⟨(correct_rows bs cs ms fs).map Prod.fst,
    (correct_rows bs cs ms fs).map Prod.snd, ?_, ?_, ?_⟩
  · unfold correct_gband
    rw [if_pos ⟨h1, h2, h3⟩]
  · rw [List.getElem?_map, hrows]
    rfl
  · rw [List.getElem?_map, hrows]
    rfl

/-- Witness for C7 on length-1 vectors at index 0. -/
theorem scalar_vector_equivalence_witness :
    ∃ gm gf, correct_gband [NFloat.val 1.5] [95] [NFloat.val 17] [NFloat.val 1000] =
        Except.ok (gm, gf) ∧
      gm[0]? = some (correct_gband_elem (NFloat.val 1.5) 95 (NFloat.val 17)
        (NFloat.val 1000)).1 ∧
      gf[0]? = some (correct_gband_elem (NFloat.val 1.5) 95 (NFloat.val 17)
        (NFloat.val 1000)).2 :=
  scalar_vector_equivalence [NFloat.val 1.5] [95] [NFloat.val 17] [NFloat.val 1000]
    rfl rfl rfl 0 _ _ _ _ rfl rfl rfl rfl

/-- C9.  Shape preservation and whole-element correction: on shape-matching
inputs both outputs have the same length as the inputs; the do-not-correct,
bright and faint masks are pairwise disjoint; and an element in neither
regime is returned exactly unchanged. -/
theorem shape_preservation (bs : List NFloat) (cs : List ℤ) (ms fs : List NFloat)
    (h1 : bs.length = cs.length) (h2 : cs.length = ms.length) (h3 : ms.length = fs.length) :
    (∃ gm gf, correct_gband bs cs ms fs = Except.ok (gm, gf) ∧
      gm.length = bs.length ∧ gf.length = bs.length) ∧
    (∀ (b : NFloat) (a : ℤ) (m : NFloat),
      ¬(do_not_correct b a m = true ∧ bright_correct b a m = true) ∧
      ¬(do_not_correct b a m = true ∧ faint_correct b a m = true) ∧
      ¬(bright_correct b a m = true ∧ faint_correct b a m = true)) ∧
    (∀ (b : NFloat) (a : ℤ) (m gflux : NFloat),
      bright_correct b a m = false → faint_correct b a m = false →
      correct_gband_elem b a m gflux = (NFloat.toR m, gflux)) := by
  refine ⟨?_, ?_, ?_⟩
  · have hlen := correct_rows_length bs cs ms fs h1 h2 h3
    refine ⟨(correct_rows bs cs ms fs).map Prod.fst,
      (correct_rows bs cs ms fs).map Prod.snd, ?_, by simp [hlen], by simp [hlen]⟩
    unfold correct_gband
    rw [if_pos ⟨h1, h2, h3⟩]
  · intro b a m
    refine ⟨?_, ?_, ?_⟩
    · rintro ⟨hd, hbr⟩
      exact absurd hbr (by simp [bright_correct_eq_false_of_dnc hd])
    · rintro ⟨hd, hfa⟩
      exact absurd hfa (by simp [faint_correct_eq_false_of_dnc hd])
    · rintro ⟨hbr, hfa⟩
      exact absurd hbr (by simp [bright_correct_eq_false_of_faint hfa])
  · intro b a m gflux hbr hfa
    exact correct_gband_elem_of_factor_one (correction_factor_of_none hbr hfa) gflux

/-- Witness for C9 on length-1 vectors. -/
theorem shape_preservation_witness :
    ∃ gm gf, correct_gband [NFloat.val 1.5] [95] [NFloat.val 17] [NFloat.val 1000] =
        Except.ok (gm, gf) ∧
      gm.length = 1 ∧ gf.length = 1 :=
  (shape_preservation [NFloat.val 1.5] [95] [NFloat.val 17] [NFloat.val 1000]
    rfl rfl rfl).1

/-- C10.  The correction factor is always a strictly positive number, so the
logarithm's argument is never zero or negative, a numeric input magnitude
always produces a numeric corrected magnitude, and the corrected flux has the
same sign as the input flux. -/
theorem factor_positive_and_sign_preserving (b : NFloat) (a : ℤ) (m gflux : NFloat) :
    (∃ q : ℚ, correction_factor b a m = NFloat.val q ∧ 0 < q) ∧
    (∀ mq : ℚ, m = NFloat.val mq →
      ∃ r : ℝ, (correct_gband_elem b a m gflux).1 = RFloat.val r) ∧
    (∀ x : ℚ, gflux = NFloat.val x → ∃ y : ℚ,
      (correct_gband_elem b a m gflux).2 = NFloat.val y ∧
      (0 < x → 0 < y) ∧ (x = 0 → y = 0) ∧ (x < 0 → y < 0)) := by
  obtain ⟨q, hq, hqpos⟩ := correction_factor_pos b a m
  refine ⟨⟨q, hq, hqpos⟩, ?_, ?_⟩
  · rintro mq rfl
    exact ⟨_, by rw [correct_gband_elem_of_factor_val hqpos hq gflux]⟩
  · rintro x rfl
    refine ⟨x * q, by simp [correct_gband_elem, hq, NFloat.mul], ?_, ?_, ?_⟩
    · intro hx
      exact mul_pos hx hqpos
    · intro hx
      simp [hx]
    · intro hx
      exact mul_neg_of_neg_of_pos hx hqpos

/-- Witness for C10 at colour 1.5, code 95, magnitude 17, flux -2: the factor
is positive, the corrected magnitude is numeric, the corrected flux stays
negative. -/
theorem factor_positive_and_sign_preserving_witness :
    (∃ q : ℚ, correction_factor (NFloat.val 1.5) 95 (NFloat.val 17) = NFloat.val q ∧
      0 < q) ∧
    (∃ r : ℝ, (correct_gband_elem (NFloat.val 1.5) 95 (NFloat.val 17)
      (NFloat.val (-2))).1 = RFloat.val r) ∧
    (∃ y : ℚ, (correct_gband_elem (NFloat.val 1.5) 95 (NFloat.val 17)
      (NFloat.val (-2))).2 = NFloat.val y ∧ y < 0) := by
  obtain ⟨hpos, hmag, hflux⟩ :=
    factor_positive_and_sign_preserving (NFloat.val 1.5) 95 (NFloat.val 17)
      (NFloat.val (-2))
  refine ⟨hpos, hmag 17 rfl, ?_⟩
  obtain ⟨y, hy, hsign⟩ := hflux (-2) rfl
  exact ⟨y, hy, hsign.2.2 (by norm_num)⟩

/-! The concrete scenario of C8.  Evaluating the faint cubic at the clipped
colour 1.5 gives `1.00525 - 0.02323*1.5 + 0.01740*2.25 - 0.00253*3.375 =
1.00101625`, not `≈ 0.98088` as the claim states, so the claimed outputs
(`corrected_magnitude ≈ 17.0209`, `corrected_flux ≈ 980.88`) are also wrong:
the actual corrected flux is exactly `1001.01625` and the actual corrected
magnitude is strictly below 17. -/

lemma faint_correct_scenario : faint_correct (NFloat.val 1.5) 95 (NFloat.val 17) = true := by
  norm_num [faint_correct, do_not_correct, NFloat.isnan, NFloat.leb, NFloat.gtb]

lemma clipQ_scenario : clipQ 1.5 = 1.5 := by
  rw [clipQ, max_eq_left (by norm_num), min_eq_left (by norm_num)]

lemma correction_factor_scenario :
    correction_factor (NFloat.val 1.5) 95 (NFloat.val 17) = NFloat.val 1.00101625 := by
  rw [correction_factor_of_faint faint_correct_scenario, clipQ_scenario]
  norm_num [faint_poly]

/-- C8 counterexample: at colour 1.5, code 95, magnitude 17, flux 1000 the
correction factor is exactly `1.00101625` (not `≈ 0.98088`), the corrected
flux is exactly `1001.01625` (not `≈ 980.88`), and the corrected magnitude is
strictly below 17 (not `≈ 17.0209`). -/
theorem concrete_scenario_claim_false :
    correction_factor (NFloat.val 1.5) 95 (NFloat.val 17) = NFloat.val 1.00101625 ∧
    ¬|(1.00101625 : ℚ) - 0.98088| ≤ 1/100 ∧
    (correct_gband_elem (NFloat.val 1.5) 95 (NFloat.val 17) (NFloat.val 1000)).2 =
      NFloat.val 1001.01625 ∧
    ¬|(1001.01625 : ℚ) - 980.88| ≤ 10 ∧
    (correct_gband_elem (NFloat.val 1.5) 95 (NFloat.val 17) (NFloat.val 1000)).1 =
      RFloat.val (((17 : ℚ) : ℝ) - 2.5 * Real.logb 10 ((1.00101625 : ℚ) : ℝ)) ∧
    ¬|(((17 : ℚ) : ℝ) - 2.5 * Real.logb 10 ((1.00101625 : ℚ) : ℝ)) - 17.0209| ≤ 1/100 := by
  have hcf := correction_factor_scenario
  have hL : 0 < Real.logb 10 ((1.00101625 : ℚ) : ℝ) :=
    Real.logb_pos (by norm_num) (by norm_num)
  refine ⟨hcf, ?_, ?_, ?_, ?_, ?_⟩
  · rw [abs_of_pos (by norm_num : (0 : ℚ) < 1.00101625 - 0.98088)]
    norm_num
  · simp [correct_gband_elem, hcf, NFloat.mul]
    norm_num
  · rw [abs_of_pos (by norm_num : (0 : ℚ) < 1001.01625 - 980.88)]
    norm_num
  · exact congrArg Prod.fst
      (correct_gband_elem_of_factor_val (by norm_num) hcf (NFloat.val 1000))
  · intro habs
    rw [abs_le] at habs
    have := habs.1
    push_cast at this
    linarith

/-- C8 amended: at colour 1.5, code 95, magnitude 17, flux 1000 the element
is in the faint regime with clipped colour 1.5, the correction factor is
exactly `1.00101625`, the corrected flux is exactly `1001.01625`, and the
corrected magnitude is `17 - 2.5*log10(1.00101625)`, which lies strictly
between 16.998 and 17. -/
theorem concrete_scenario_actual :
    faint_correct (NFloat.val 1.5) 95 (NFloat.val 17) = true ∧
    clip (NFloat.val 1.5) 0.25 3.0 = NFloat.val 1.5 ∧
    correction_factor (NFloat.val 1.5) 95 (NFloat.val 17) = NFloat.val 1.00101625 ∧
    (correct_gband_elem (NFloat.val 1.5) 95 (NFloat.val 17) (NFloat.val 1000)).2 =
      NFloat.val 1001.01625 ∧
    (correct_gband_elem (NFloat.val 1.5) 95 (NFloat.val 17) (NFloat.val 1000)).1 =
      RFloat.val (((17 : ℚ) : ℝ) - 2.5 * Real.logb 10 ((1.00101625 : ℚ) : ℝ)) ∧
    (16.998 : ℝ) < ((17 : ℚ) : ℝ) - 2.5 * Real.logb 10 ((1.00101625 : ℚ) : ℝ) ∧
    ((17 : ℚ) : ℝ) - 2.5 * Real.logb 10 ((1.00101625 : ℚ) : ℝ) < 17 := by
  have hcf := correction_factor_scenario
  have hcast : ((1.00101625 : ℚ) : ℝ) = 1.00101625 := by norm_num
  have hxpos : (0 : ℝ) < 1.00101625 := by norm_num
  have hlogx : Real.log (1.00101625 : ℝ) ≤ 0.00101625 := by
    have := Real.log_le_sub_one_of_pos hxpos
    linarith
  have hlogx0 : 0 ≤ Real.log (1.00101625 : ℝ) :=
    Real.log_nonneg (by norm_num)
  have hlog10 : (2 : ℝ) < Real.log 10 := by
    rw [Real.lt_log_iff_exp_lt (by norm_num : (0:ℝ) < 10)]
    have hexp2 : Real.exp 2 = Real.exp 1 * Real.exp 1 := by
      rw [← Real.exp_add]
      norm_num
    nlinarith [Real.exp_one_lt_d9, Real.exp_pos 1]
  have hLle : Real.logb 10 ((1.00101625 : ℚ) : ℝ) ≤ 0.00101625 / 2 := by
    rw [hcast, Real.logb]
    exact div_le_div₀ (by norm_num) hlogx (by norm_num) (le_of_lt hlog10)
  have hL : 0 < Real.logb 10 ((1.00101625 : ℚ) : ℝ) :=
    Real.logb_pos (by norm_num) (by norm_num)
  refine ⟨faint_correct_scenario, ?_, hcf, ?_, ?_, ?_, ?_⟩
  · rw [clip]
    norm_num
  · simp [correct_gband_elem, hcf, NFloat.mul]
    norm_num
  · exact congrArg Prod.fst
      (correct_gband_elem_of_factor_val (by norm_num) hcf (NFloat.val 1000))
  · push_cast
    linarith
  · push_cast
    linarith

end GCorrection
